import Mathlib

/-!
Shallow embedding of the vanity-address search engine of the repository
`bytegen-dev/vanity-address`, covering:

* `src/lib/vanity-generator.ts` — `VanityAddressGenerator` (Base58 / Solana variant);
* `src/unnamed/part_002` (= `evm-vanity-generator.ts`) — `EVMVanityAddressGenerator`
  (Hex / EVM variant, with criteria validation and batched search loop);
* `src/lib/ethereum-vanity-generator.ts` — `EthereumVanityAddressGenerator`;
* `src/lib/evm-worker-manager.ts` — `EVMWorkerManager` (dispatcher state machine).

JS strings are modelled as `List Char`, JS numbers used for probabilities as `ℚ`
(exact rational arithmetic), JS `Infinity` of `estimateExpectedAttempts` as
`⊤ : WithTop ℤ`.  External collaborators (keypair generation via
`@solana/web3.js` / `ethers`, the `bs58` encoder, `Date.now()`, and external
mutation of the stop flag) enter as explicit parameters: the keypair produced at
attempt `n` is `gen n`, the elapsed milliseconds observed at attempt `n` is
`elapsedAt n`, and the running/stop flag read when the attempt counter is `n` is
`runningAt n` / `stopAt n`.
-/

/-- Search criteria, the shared shape of `VanityOptions` / `EVMVanityOptions`
criteria fields (`startsWith`, `endsWith`, `contains`, `caseSensitive`).
Empty list models the JS empty string (falsy). -/
structure Criteria where
  startsWith : List Char
  endsWith : List Char
  contains : List Char
  caseSensitive : Bool
deriving DecidableEq

/-- ASCII lower-casing of one character, the behaviour of JS
`String.prototype.toLowerCase` on the ASCII range used by both alphabets. -/
def lowerChar (ch : Char) : Char :=
  if 'A' ≤ ch && ch ≤ 'Z' then Char.ofNat (ch.toNat + 32) else ch

/-- JS `s.toLowerCase()` on an ASCII string. -/
def lowerStr (s : List Char) : List Char :=
  s.map lowerChar

/-- JS `a.startsWith(p)`. -/
def startsWithL : List Char → List Char → Bool
  | _, [] => true
  | [], _ :: _ => false
  | a :: as, p :: ps => a == p && startsWithL as ps

/-- JS `a.endsWith(p)`. -/
def endsWithL (a p : List Char) : Bool :=
  startsWithL a.reverse p.reverse

/-- JS `a.includes(p)`. -/
def containsL : List Char → List Char → Bool
  | [], p => p.isEmpty
  | a :: as, p => startsWithL (a :: as) p || containsL as p

/-- Transcription of `VanityAddressGenerator.matchesCriteria`
(`src/lib/vanity-generator.ts`, lines 102–147): each JS
`if (pat && !test) return false;` guard becomes one conditional; the
case-insensitive branch lower-cases both the address and the pattern. -/
def b58MatchesCriteria (publicKey : List Char) (c : Criteria) : Bool :=
  if c.caseSensitive then
    if !c.startsWith.isEmpty && !startsWithL publicKey c.startsWith then false
    else if !c.endsWith.isEmpty && !endsWithL publicKey c.endsWith then false
    else if !c.contains.isEmpty && !containsL publicKey c.contains then false
    else true
  else
    if !c.startsWith.isEmpty
        && !startsWithL (lowerStr publicKey) (lowerStr c.startsWith) then false
    else if !c.endsWith.isEmpty
        && !endsWithL (lowerStr publicKey) (lowerStr c.endsWith) then false
    else if !c.contains.isEmpty
        && !containsL (lowerStr publicKey) (lowerStr c.contains) then false
    else true

/-- Transcription of `EthereumVanityAddressGenerator.matchesCriteria`
(`src/lib/ethereum-vanity-generator.ts`, lines 98–134): same guard structure as
the Base58 matcher, applied to the address string as given — this copy does NOT
remove the `0x` prefix. -/
def ethMatchesCriteria (address : List Char) (c : Criteria) : Bool :=
  if c.caseSensitive then
    if !c.startsWith.isEmpty && !startsWithL address c.startsWith then false
    else if !c.endsWith.isEmpty && !endsWithL address c.endsWith then false
    else if !c.contains.isEmpty && !containsL address c.contains then false
    else true
  else
    if !c.startsWith.isEmpty
        && !startsWithL (lowerStr address) (lowerStr c.startsWith) then false
    else if !c.endsWith.isEmpty
        && !endsWithL (lowerStr address) (lowerStr c.endsWith) then false
    else if !c.contains.isEmpty
        && !containsL (lowerStr address) (lowerStr c.contains) then false
    else true

/-- The prefix-stripping step of `EVMVanityAddressGenerator.matchesCriteria`
(`src/unnamed/part_002`, lines 120–123): `address.startsWith("0x") ?
address.slice(2) : address`. -/
def strip0x (address : List Char) : List Char :=
  if startsWithL address ['0', 'x'] then address.drop 2 else address

/-- Transcription of `EVMVanityAddressGenerator.matchesCriteria`
(`src/unnamed/part_002`, lines 109–159): removes a leading `0x` and then applies
the same guard structure to the remaining body. -/
def evmMatchesCriteria (address : List Char) (c : Criteria) : Bool :=
  let addressNoPre := if startsWithL address ['0', 'x'] then address.drop 2 else address
  if c.caseSensitive then
    if !c.startsWith.isEmpty && !startsWithL addressNoPre c.startsWith then false
    else if !c.endsWith.isEmpty && !endsWithL addressNoPre c.endsWith then false
    else if !c.contains.isEmpty && !containsL addressNoPre c.contains then false
    else true
  else
    if !c.startsWith.isEmpty
        && !startsWithL (lowerStr addressNoPre) (lowerStr c.startsWith) then false
    else if !c.endsWith.isEmpty
        && !endsWithL (lowerStr addressNoPre) (lowerStr c.endsWith) then false
    else if !c.contains.isEmpty
        && !containsL (lowerStr addressNoPre) (lowerStr c.contains) then false
    else true

/-- Keypair produced by `Keypair.generate()` of `@solana/web3.js`: a Base58
public key string and raw secret-key bytes. -/
structure B58Keypair where
  publicKey : List Char
  secretKey : List Nat
deriving DecidableEq

/-- Result shape `VanityResult` of `src/lib/vanity-generator.ts`. -/
structure VanityResult where
  publicKey : List Char
  privateKey : List Char
  attempts : Nat
  timeElapsed : Nat
deriving DecidableEq

/-- Search loop of `VanityAddressGenerator.generateVanityAddress`
(`src/lib/vanity-generator.ts`, lines 41–89).  `enc` is the external
`bs58.encode`; `gen n` the keypair generated at attempt `n`; `elapsedAt n` the
value of `Date.now() - this.startTime` observed when `attempts = n`;
`runningAt n` the value of `this.isRunning` read at the loop head when
`attempts = n` (external `stop()` calls flip it).  `fuel` counts the remaining
iterations allowed by `attempts < maxAttempts` (initially `maxAttempts`), and
the returned `Nat` is the final value of the `attempts` counter.  The source
performs no criteria validation: the loop starts unconditionally. -/
def b58Go (enc : List Nat → List Char) (gen : Nat → B58Keypair)
    (elapsedAt : Nat → Nat) (runningAt : Nat → Bool) (c : Criteria)
    (maxTime : Nat) : Nat → Nat → Option VanityResult × Nat
  | 0, attempts => (none, attempts)
  | fuel + 1, attempts =>
    if runningAt attempts then
      let attempts' := attempts + 1
      if elapsedAt attempts' > maxTime then (none, attempts')
      else
        let kp := gen attempts'
        if b58MatchesCriteria kp.publicKey c then
          (some ⟨kp.publicKey, enc kp.secretKey, attempts', elapsedAt attempts'⟩, attempts')
        else
          b58Go enc gen elapsedAt runningAt c maxTime fuel attempts'
    else (none, attempts)

/-- Value returned by `VanityAddressGenerator.generateVanityAddress`
(`VanityResult | null`, modelled as `Option VanityResult`). -/
def b58GenerateVanityAddress (enc : List Nat → List Char) (gen : Nat → B58Keypair)
    (elapsedAt : Nat → Nat) (runningAt : Nat → Bool) (c : Criteria)
    (maxAttempts maxTime : Nat) : Option VanityResult :=
  (b58Go enc gen elapsedAt runningAt c maxTime maxAttempts 0).1

/-- Wallet produced by `ethers.Wallet.createRandom()`. -/
structure EVMWallet where
  address : List Char
  privateKey : List Char
  publicKey : List Char
deriving DecidableEq

/-- Result shape `EVMVanityResult` of `src/unnamed/part_002`. -/
structure EVMVanityResult where
  address : List Char
  privateKey : List Char
  publicKey : List Char
  attempts : Nat
  timeElapsed : Nat
deriving DecidableEq

/-- Inner batch loop of `EVMVanityAddressGenerator.generateVanityAddress`
(`src/unnamed/part_002`, lines 72–95): `for (i = 0; i < BATCH_SIZE; i++)`,
each step incrementing `attempts`, generating a wallet, returning on a match,
and breaking out of the batch on timeout.  `Sum.inl` is the found-result
return, `Sum.inr` the attempts counter when the batch ends. -/
def evmInner (gen : Nat → EVMWallet) (elapsedAt : Nat → Nat) (c : Criteria)
    (maxTime : Nat) : Nat → Nat → Sum EVMVanityResult Nat
  | 0, attempts => Sum.inr attempts
  | i + 1, attempts =>
    let attempts' := attempts + 1
    let w := gen attempts'
    if evmMatchesCriteria w.address c then
      Sum.inl ⟨w.address, w.privateKey, w.publicKey, attempts', elapsedAt attempts'⟩
    else if elapsedAt attempts' > maxTime then Sum.inr attempts'
    else evmInner gen elapsedAt c maxTime i attempts'

/-- Outer loop of `EVMVanityAddressGenerator.generateVanityAddress`
(`src/unnamed/part_002`, lines 70–104): `while (attempts < maxAttempts &&
!this.shouldStop)`, running one batch of `BATCH_SIZE = 100` per iteration.
`stopAt n` is the value of `this.shouldStop` read when `attempts = n`.  Each
iteration increments `attempts` at least once, so `fuel = maxAttempts`
iterations are enough to reach the `attempts < maxAttempts` exit. -/
def evmOuter (gen : Nat → EVMWallet) (elapsedAt : Nat → Nat)
    (stopAt : Nat → Bool) (c : Criteria) (maxAttempts maxTime : Nat) :
    Nat → Nat → Option EVMVanityResult
  | 0, _ => none
  | fuel + 1, attempts =>
    if attempts < maxAttempts && !stopAt attempts then
      match evmInner gen elapsedAt c maxTime 100 attempts with
      | Sum.inl r => some r
      | Sum.inr attempts' => evmOuter gen elapsedAt stopAt c maxAttempts maxTime fuel attempts'
    else none

/-- Membership test of the source regex `/^[0-9a-fA-F]*$/` for one character. -/
def hexCharOk (ch : Char) : Bool :=
  ('0' ≤ ch && ch ≤ '9') || ('a' ≤ ch && ch ≤ 'f') || ('A' ≤ ch && ch ≤ 'F')

/-- JS `hexPattern.test(s)` with `hexPattern = /^[0-9a-fA-F]*$/`. -/
def allHexChars (s : List Char) : Bool :=
  s.all hexCharOk

/-- Validation sequence at the head of
`EVMVanityAddressGenerator.generateVanityAddress` (`src/unnamed/part_002`,
lines 43–64): first the at-least-one-criteria check, then the per-field hex
checks, each `throw new Error(...)` modelled as the returned message. -/
def evmValidationError (c : Criteria) : Option String :=
  if c.startsWith.isEmpty && c.endsWith.isEmpty && c.contains.isEmpty then
    some "At least one criteria must be specified"
  else if !c.startsWith.isEmpty && !allHexChars c.startsWith then
    some "Starts with must contain only valid hex characters (0-9, a-f, A-F)"
  else if !c.endsWith.isEmpty && !allHexChars c.endsWith then
    some "Ends with must contain only valid hex characters (0-9, a-f, A-F)"
  else if !c.contains.isEmpty && !allHexChars c.contains then
    some "Contains must contain only valid hex characters (0-9, a-f, A-F)"
  else none

/-- Full behaviour of `EVMVanityAddressGenerator.generateVanityAddress`
(`src/unnamed/part_002`, lines 28–107): validation first (a thrown `Error`
modelled as `Except.error`), then the batched search loop; `Except.ok none`
models the `null` return. -/
def evmGenerateVanityAddress (gen : Nat → EVMWallet) (elapsedAt : Nat → Nat)
    (stopAt : Nat → Bool) (c : Criteria) (maxAttempts maxTime : Nat) :
    Except String (Option EVMVanityResult) :=
  match evmValidationError c with
  | some e => Except.error e
  | none => Except.ok (evmOuter gen elapsedAt stopAt c maxAttempts maxTime maxAttempts 0)

/-- Settlement state of the promise returned by
`EVMWorkerManager.generateVanityAddress`: `pending` until one of the handler
paths calls `resolve(result)`, `resolve(null)` or `reject(...)`. -/
inductive PromiseState where
  | pending
  | resolvedResult (r : EVMVanityResult)
  | resolvedNull
  | rejected (msg : List Char)
deriving DecidableEq

/-- Mutable state of an `EVMWorkerManager` (`src/lib/evm-worker-manager.ts`):
`workerAlive` models `this.worker !== null`, `isRunning` models
`this.isRunning`, and `promise` the promise of the pending
`generateVanityAddress` call (`none` when no call was made). -/
structure EVMWorkerManagerState where
  workerAlive : Bool
  isRunning : Bool
  promise : Option PromiseState
deriving DecidableEq

/-- Outcome of one `generateVanityAddress` call on the manager: either the
synchronous rejection of the freshly created promise (`busy`), or a started
search whose promise is recorded in the state. -/
inductive StartOutcome where
  | busy (msg : List Char)
  | started
deriving DecidableEq

/-- Transcription of the synchronous part of
`EVMWorkerManager.generateVanityAddress` (`src/lib/evm-worker-manager.ts`,
lines 18–31): if `this.isRunning`, reject with
`new Error("Generation already in progress")` and return, leaving every field
untouched; otherwise set `isRunning`, spawn the worker, and leave the new
promise pending. -/
def workerManagerGenerate (s : EVMWorkerManagerState) :
    StartOutcome × EVMWorkerManagerState :=
  if s.isRunning then
    (StartOutcome.busy "Generation already in progress".data, s)
  else
    (StartOutcome.started,
      { workerAlive := true, isRunning := true, promise := some PromiseState.pending })

/-- Transcription of `EVMWorkerManager.stop` (`src/lib/evm-worker-manager.ts`,
lines 80–86): `if (this.worker) { this.worker.terminate(); this.cleanup();
this.isRunning = false; }`.  Terminating the worker settles nothing: no
handler runs, so the `promise` field is carried over unchanged. -/
def workerManagerStop (s : EVMWorkerManagerState) : EVMWorkerManagerState :=
  if s.workerAlive then
    { workerAlive := false, isRunning := false, promise := s.promise }
  else s

/-- Message shape `EVMWorkerMessage` of `src/lib/evm-worker-manager.ts`. -/
structure EVMWorkerMessage where
  success : Bool
  result : Option EVMVanityResult
  progressAttempts : Option Nat
  errorMsg : Option (List Char)
  reason : Option (List Char)
deriving DecidableEq

/-- Transcription of the `onmessage` handler of
`EVMWorkerManager.generateVanityAddress` (`src/lib/evm-worker-manager.ts`,
lines 33–60): an error message rejects; `success` with a result resolves with
it; a `reason` without success resolves with `null` — the reason string itself
is discarded; a pure progress message leaves the state unchanged. -/
def workerManagerOnMessage (s : EVMWorkerManagerState) (m : EVMWorkerMessage) :
    EVMWorkerManagerState :=
  match m.errorMsg with
  | some e => { workerAlive := false, isRunning := false, promise := some (PromiseState.rejected e) }
  | none =>
    match m.success, m.result with
    | true, some r =>
        { workerAlive := false, isRunning := false, promise := some (PromiseState.resolvedResult r) }
    | _, _ =>
      if !m.success && m.reason.isSome then
        { workerAlive := false, isRunning := false, promise := some PromiseState.resolvedNull }
      else s

/-- Per-constraint multiplier of `VanityAddressGenerator.estimateProbability`
(`src/lib/vanity-generator.ts`, lines 185–215): each active constraint of
length `L` contributes `(1/58)^L`, and when matching is case-insensitive an
additional `min(2^L, 58)`.  The sequential `probability *= ...` updates of the
source are written as a product of the three per-constraint factors. -/
def b58Factor (s : List Char) (caseSensitive : Bool) : ℚ :=
  if s.isEmpty then 1
  else ((1 : ℚ) / 58) ^ s.length *
    (if caseSensitive then 1 else min ((2 : ℚ) ^ s.length) 58)

/-- Transcription of `VanityAddressGenerator.estimateProbability`
(`src/lib/vanity-generator.ts`, lines 173–218) in exact rational arithmetic;
no clamp is applied in this variant.  `b58EstimateProbabilityFP` below is the
same computation under binary64 rounding. -/
def b58EstimateProbability (c : Criteria) : ℚ :=
  b58Factor c.startsWith c.caseSensitive * b58Factor c.endsWith c.caseSensitive *
    b58Factor c.contains c.caseSensitive

/-- Transcription of `VanityAddressGenerator.estimateExpectedAttempts`
(`src/lib/vanity-generator.ts`, lines 223–231):
`probability > 0 ? Math.ceil(1 / probability) : Infinity`, in exact rational
arithmetic; `b58EstimateExpectedAttemptsFP` below keeps the binary64
rounding. -/
def b58EstimateExpectedAttempts (c : Criteria) : WithTop ℤ :=
  let probability := b58EstimateProbability c
  if 0 < probability then ((⌈1 / probability⌉ : ℤ) : WithTop ℤ) else ⊤

/-- Per-constraint multiplier of the `startsWith` / `endsWith` branches of
`EVMVanityAddressGenerator.estimateProbability` (`src/unnamed/part_002`,
lines 171–186), with `alphabetSize = 16`. -/
def evmFactor (s : List Char) (caseSensitive : Bool) : ℚ :=
  if s.isEmpty then 1
  else ((1 : ℚ) / 16) ^ s.length *
    (if caseSensitive then 1 else min ((2 : ℚ) ^ s.length) 16)

/-- Multiplier of the `contains` branch of
`EVMVanityAddressGenerator.estimateProbability` (`src/unnamed/part_002`,
lines 188–199): the per-character probability is additionally multiplied by
`possiblePositions = addressLength - contains.length + 1` with
`addressLength = 40`, before the optional case multiplier. -/
def evmContainsFactor (s : List Char) (caseSensitive : Bool) : ℚ :=
  if s.isEmpty then 1
  else ((1 : ℚ) / 16) ^ s.length * ((40 : ℚ) - s.length + 1) *
    (if caseSensitive then 1 else min ((2 : ℚ) ^ s.length) 16)

/-- Transcription of `EVMVanityAddressGenerator.estimateProbability`
(`src/unnamed/part_002`, lines 161–202), including the final
`Math.min(probability, 1)` clamp. -/
def evmEstimateProbability (c : Criteria) : ℚ :=
  min (evmFactor c.startsWith c.caseSensitive * evmFactor c.endsWith c.caseSensitive *
    evmContainsFactor c.contains c.caseSensitive) 1

/-- Transcription of `EVMVanityAddressGenerator.estimateExpectedAttempts`
(`src/unnamed/part_002`, lines 204–212). -/
def evmEstimateExpectedAttempts (c : Criteria) : WithTop ℤ :=
  let probability := evmEstimateProbability c
  if 0 < probability then ((⌈1 / probability⌉ : ℤ) : WithTop ℤ) else ⊤

/-- The three criteria slots a constraint string can live in. -/
inductive Slot where
  | sw
  | ew
  | ct
deriving DecidableEq

/-- Extension of one constraint slot by one character, all other fields kept. -/
def extendSlot (c : Criteria) (sl : Slot) (ch : Char) : Criteria :=
  match sl with
  | Slot.sw => { c with startsWith := c.startsWith ++ [ch] }
  | Slot.ew => { c with endsWith := c.endsWith ++ [ch] }
  | Slot.ct => { c with contains := c.contains ++ [ch] }

/-- Modelled from the spec: the 58-symbol alphabet of the external `bs58`
encoder (all alphanumerics except `0`, `O`, `I`, `l`), the "target alphabet"
the Base58 variant's addresses are drawn from.  Used only to express
membership of a pattern character in that alphabet; the constant itself
appears in no source file. -/
def base58Alphabet : List Char :=
  "123456789ABCDEFGHJKLMNPQRSTUVWXYZabcdefghijkmnopqrstuvwxyz".data

/-- Variant tag `AddressType` of `src/unnamed/part_004`
(= `unified-vanity-generator.ts`). -/
inductive AddressType where
  | solana
  | evm
deriving DecidableEq

/-- The lookup `invalidChars.find(char => s.includes(char))` of the Solana
branch of `UnifiedVanityAddressGenerator.validateCriteria`
(`src/unnamed/part_004`): the first of the four excluded characters
`0`, `O`, `I`, `l` occurring in the pattern, if any. -/
def findInvalidBase58Char (s : List Char) : Option Char :=
  (['0', 'O', 'I', 'l'] : List Char).find? (fun ch => containsL s [ch])

/-- Transcription of `UnifiedVanityAddressGenerator.validateCriteria`
(`src/unnamed/part_004`, lines 124–165), the facade's pre-flight validation
(it is not called by any `generateVanityAddress`).  The Solana branch flags
only the four non-Base58 look-alike characters `0`, `O`, `I`, `l` and accepts
empty criteria; the EVM branch applies the hex-character regex.  Sequential
`issues.push(...)` calls become list concatenation; the issue strings are
transcribed without the surrounding quote punctuation of the source. -/
def validateCriteria (addressType : AddressType) (c : Criteria) : List (List Char) :=
  match addressType with
  | AddressType.solana =>
    (if !c.startsWith.isEmpty then
      match findInvalidBase58Char c.startsWith with
      | some ch =>
          ["Starts With cannot contain: ".data ++ [ch] ++ " (not in Base58 alphabet)".data]
      | none => []
    else []) ++
    (if !c.endsWith.isEmpty then
      match findInvalidBase58Char c.endsWith with
      | some ch =>
          ["Ends With cannot contain: ".data ++ [ch] ++ " (not in Base58 alphabet)".data]
      | none => []
    else []) ++
    (if !c.contains.isEmpty then
      match findInvalidBase58Char c.contains with
      | some ch =>
          ["Contains cannot contain: ".data ++ [ch] ++ " (not in Base58 alphabet)".data]
      | none => []
    else [])
  | AddressType.evm =>
    (if !c.startsWith.isEmpty && !allHexChars c.startsWith then
      ["Starts With must contain only valid hex characters (0-9, a-f, A-F)".data]
    else []) ++
    (if !c.endsWith.isEmpty && !allHexChars c.endsWith then
      ["Ends With must contain only valid hex characters (0-9, a-f, A-F)".data]
    else []) ++
    (if !c.contains.isEmpty && !allHexChars c.contains then
      ["Contains must contain only valid hex characters (0-9, a-f, A-F)".data]
    else [])

/-- Round a positive rational to the nearest integer, ties to the even
integer — the rounding applied to the infinitely precise result of every
IEEE-754 operation. -/
def rnEven (x : ℚ) : ℤ :=
  if x - ⌊x⌋ < 1/2 then ⌊x⌋
  else if 1/2 < x - ⌊x⌋ then ⌊x⌋ + 1
  else if 2 ∣ ⌊x⌋ then ⌊x⌋ else ⌊x⌋ + 1

/-- Rounding of a positive rational to the nearest IEEE-754 binary64 value:
scale by the power of two that brings the value into `[2^52, 2^53)`, round to
nearest even, scale back.  This is exact binary64 round-to-nearest for the
normal range; all values arising in the estimator are far from overflow and
from subnormals. -/
def roundDouble (q : ℚ) : ℚ :=
  if q ≤ 0 then 0
  else
    let e : ℤ := Int.log 2 q - 52
    (rnEven (q / 2 ^ e) : ℚ) * 2 ^ e

/-- Transcription of `VanityAddressGenerator.estimateProbability`
(`src/lib/vanity-generator.ts`, lines 173–218) under IEEE-754 binary64
semantics: the literal `1 / alphabetSize` and the result of every `Math.pow`
and every `probability *= ...` update are rounded to the nearest double
(`Math.pow` modelled as correctly rounded, which real implementations achieve
on these inputs; `Math.min` is exact).  `b58EstimateProbability` is the same
computation idealized to exact rationals — the two differ only in final-ulp
rounding. -/
def b58EstimateProbabilityFP (c : Criteria) : ℚ :=
  let invA := roundDouble (1 / 58)
  let p0 : ℚ := 1
  let p1 :=
    if c.startsWith.isEmpty then p0
    else
      let p := roundDouble (p0 * roundDouble (invA ^ c.startsWith.length))
      if c.caseSensitive then p
      else roundDouble (p * min (roundDouble ((2:ℚ) ^ c.startsWith.length)) 58)
  let p2 :=
    if c.endsWith.isEmpty then p1
    else
      let p := roundDouble (p1 * roundDouble (invA ^ c.endsWith.length))
      if c.caseSensitive then p
      else roundDouble (p * min (roundDouble ((2:ℚ) ^ c.endsWith.length)) 58)
  let p3 :=
    if c.contains.isEmpty then p2
    else
      let p := roundDouble (p2 * roundDouble (invA ^ c.contains.length))
      if c.caseSensitive then p
      else roundDouble (p * min (roundDouble ((2:ℚ) ^ c.contains.length)) 58)
  p3

/-- Transcription of `VanityAddressGenerator.estimateExpectedAttempts`
(`src/lib/vanity-generator.ts`, lines 223–231) under IEEE-754 binary64
semantics: the division `1 / probability` is rounded to the nearest double
before `Math.ceil` is applied. -/
def b58EstimateExpectedAttemptsFP (c : Criteria) : WithTop ℤ :=
  let probability := b58EstimateProbabilityFP c
  if 0 < probability then ((⌈roundDouble (1 / probability)⌉ : ℤ) : WithTop ℤ) else ⊤

/-- Helper: every found result of the Base58 search loop passed the matcher. -/
theorem b58Go_found_matches (enc : List Nat → List Char) (gen : Nat → B58Keypair)
    (elapsedAt : Nat → Nat) (runningAt : Nat → Bool) (c : Criteria) (maxTime : Nat) :
    ∀ (fuel attempts n : Nat) (r : VanityResult),
      b58Go enc gen elapsedAt runningAt c maxTime fuel attempts = (some r, n) →
      b58MatchesCriteria r.publicKey c = true := by
  intro fuel
  induction fuel with
  | zero =>
    intro attempts n r h
    simp [b58Go] at h
  | succ f ih =>
    intro attempts n r h
    simp only [b58Go] at h
    split at h
    · split at h
      · simp at h
      · split at h
        · rename_i hmatch
          simp only [Prod.mk.injEq, Option.some.injEq] at h
          rw [← h.1]
          exact hmatch
        · exact ih _ _ _ h
    · simp at h

/-- Helper: every found result of the EVM inner batch loop passed the matcher. -/
theorem evmInner_found_matches (gen : Nat → EVMWallet) (elapsedAt : Nat → Nat)
    (c : Criteria) (maxTime : Nat) :
    ∀ (i attempts : Nat) (r : EVMVanityResult),
      evmInner gen elapsedAt c maxTime i attempts = Sum.inl r →
      evmMatchesCriteria r.address c = true := by
  intro i
  induction i with
  | zero =>
    intro attempts r h
    simp [evmInner] at h
  | succ j ih =>
    intro attempts r h
    simp only [evmInner] at h
    split at h
    · rename_i hmatch
      simp only [Sum.inl.injEq] at h
      rw [← h]
      exact hmatch
    · split at h
      · simp at h
      · exact ih _ _ h

/-- Helper: every found result of the EVM outer loop passed the matcher. -/
theorem evmOuter_found_matches (gen : Nat → EVMWallet) (elapsedAt : Nat → Nat)
    (stopAt : Nat → Bool) (c : Criteria) (maxAttempts maxTime : Nat) :
    ∀ (fuel attempts : Nat) (r : EVMVanityResult),
      evmOuter gen elapsedAt stopAt c maxAttempts maxTime fuel attempts = some r →
      evmMatchesCriteria r.address c = true := by
  intro fuel
  induction fuel with
  | zero =>
    intro attempts r h
    simp [evmOuter] at h
  | succ f ih =>
    intro attempts r h
    simp only [evmOuter] at h
    split at h
    · split at h
      · rename_i heq
        simp only [Option.some.injEq] at h
        subst h
        exact evmInner_found_matches gen elapsedAt c maxTime _ _ _ heq
      · exact ih _ _ h
    · simp at h

/-- Helper: a non-null return of the Base58 `generateVanityAddress` passed the
matcher. -/
theorem b58Generate_found_matches (enc : List Nat → List Char) (gen : Nat → B58Keypair)
    (elapsedAt : Nat → Nat) (runningAt : Nat → Bool) (c : Criteria)
    (maxAttempts maxTime : Nat) (r : VanityResult)
    (h : b58GenerateVanityAddress enc gen elapsedAt runningAt c maxAttempts maxTime = some r) :
    b58MatchesCriteria r.publicKey c = true := by
  unfold b58GenerateVanityAddress at h
  rcases hx : b58Go enc gen elapsedAt runningAt c maxTime maxAttempts 0 with ⟨o, n⟩
  rw [hx] at h
  simp only at h
  subst h
  exact b58Go_found_matches enc gen elapsedAt runningAt c maxTime maxAttempts 0 n r hx

/-- Helper: an `ok (some r)` return of the EVM `generateVanityAddress` passed
the matcher. -/
theorem evmGenerate_found_matches (gen : Nat → EVMWallet) (elapsedAt : Nat → Nat)
    (stopAt : Nat → Bool) (c : Criteria) (maxAttempts maxTime : Nat) (r : EVMVanityResult)
    (h : evmGenerateVanityAddress gen elapsedAt stopAt c maxAttempts maxTime =
      Except.ok (some r)) :
    evmMatchesCriteria r.address c = true := by
  unfold evmGenerateVanityAddress at h
  rcases hv : evmValidationError c with _ | e
  · rw [hv] at h
    simp only [Except.ok.injEq] at h
    exact evmOuter_found_matches gen elapsedAt stopAt c maxAttempts maxTime maxAttempts 0 r h
  · rw [hv] at h
    simp at h

/-- C1: for every search that returns a Found result (a non-null
`VanityResult` / `EVMVanityResult` from `generateVanityAddress`), the returned
address satisfies the matcher: `matchesCriteria` holds of the result's address
for the same criteria with the same `caseSensitive` flag, in both the Base58
and the Hex variant. -/
theorem c1_found_result_satisfies_matcher :
    (∀ (enc : List Nat → List Char) (gen : Nat → B58Keypair) (elapsedAt : Nat → Nat)
        (runningAt : Nat → Bool) (c : Criteria) (maxAttempts maxTime : Nat) (r : VanityResult),
        b58GenerateVanityAddress enc gen elapsedAt runningAt c maxAttempts maxTime = some r →
        b58MatchesCriteria r.publicKey c = true) ∧
    (∀ (gen : Nat → EVMWallet) (elapsedAt : Nat → Nat) (stopAt : Nat → Bool)
        (c : Criteria) (maxAttempts maxTime : Nat) (r : EVMVanityResult),
        evmGenerateVanityAddress gen elapsedAt stopAt c maxAttempts maxTime =
          Except.ok (some r) →
        evmMatchesCriteria r.address c = true) :=
  ⟨fun enc gen elapsedAt runningAt c maxAttempts maxTime r h =>
      b58Generate_found_matches enc gen elapsedAt runningAt c maxAttempts maxTime r h,
    fun gen elapsedAt stopAt c maxAttempts maxTime r h =>
      evmGenerate_found_matches gen elapsedAt stopAt c maxAttempts maxTime r h⟩

/-- Witness for C1 at concrete searches of both variants that find a result on
the first attempt. -/
theorem c1_witness :
    b58MatchesCriteria (VanityResult.publicKey ⟨['A'], [], 1, 0⟩) ⟨['A'], [], [], true⟩ = true ∧
    evmMatchesCriteria (EVMVanityResult.address ⟨"0xab".data, [], [], 1, 0⟩)
      ⟨"a".data, [], [], true⟩ = true :=
  ⟨c1_found_result_satisfies_matcher.1 (fun _ => []) (fun _ => ⟨['A'], [0]⟩) (fun _ => 0)
      (fun _ => true) ⟨['A'], [], [], true⟩ 1 10 ⟨['A'], [], 1, 0⟩ (by decide),
    c1_found_result_satisfies_matcher.2 (fun _ => ⟨"0xab".data, [], []⟩) (fun _ => 0)
      (fun _ => false) ⟨"a".data, [], [], true⟩ 1 10 ⟨"0xab".data, [], [], 1, 0⟩ (by rfl)⟩

/-- C10: with all three constraints empty, `matchesCriteria` accepts every
address, and a Base58 `generateVanityAddress` call with empty criteria and
positive budgets returns a Found result on the very first attempt
(`attempts = 1`) instead of rejecting the empty criteria. -/
theorem c10_empty_criteria_found_first_attempt
    (addr : List Char) (cs : Bool) (enc : List Nat → List Char) (gen : Nat → B58Keypair)
    (elapsedAt : Nat → Nat) (runningAt : Nat → Bool) (maxAttempts maxTime : Nat)
    (hrun : runningAt 0 = true) (hma : 0 < maxAttempts) (ht : ¬ elapsedAt 1 > maxTime) :
    b58MatchesCriteria addr ⟨[], [], [], cs⟩ = true ∧
    b58GenerateVanityAddress enc gen elapsedAt runningAt ⟨[], [], [], cs⟩ maxAttempts maxTime =
      some ⟨(gen 1).publicKey, enc (gen 1).secretKey, 1, elapsedAt 1⟩ := by
  have hm : ∀ a, b58MatchesCriteria a ⟨[], [], [], cs⟩ = true := by
    intro a
    cases cs <;> simp [b58MatchesCriteria]
  refine ⟨hm addr, ?_⟩
  obtain ⟨f, rfl⟩ : ∃ f, maxAttempts = f + 1 := ⟨maxAttempts - 1, by omega⟩
  unfold b58GenerateVanityAddress
  simp [b58Go, hrun, ht, hm]

/-- Witness for C10 at a concrete address, generator stream and budget. -/
theorem c10_witness :
    b58MatchesCriteria "xyz".data ⟨[], [], [], false⟩ = true ∧
    b58GenerateVanityAddress (fun _ => ['k']) (fun _ => ⟨['m'], [7]⟩) (fun _ => 0)
      (fun _ => true) ⟨[], [], [], false⟩ 3 100 = some ⟨['m'], ['k'], 1, 0⟩ :=
  c10_empty_criteria_found_first_attempt "xyz".data false (fun _ => ['k'])
    (fun _ => ⟨['m'], [7]⟩) (fun _ => 0) (fun _ => true) 3 100 rfl (by decide) (by decide)

/-- C2 counterexample: the Base58 `generateVanityAddress` performs no
validation, and the only Base58 validation code in the repository — the
facade's pre-flight `validateCriteria`, which no `generateVanityAddress`
calls — does not implement the claimed rule either.  The character `+` lies
outside the Base58 target alphabet, so the claim demands a `ValidationError`
and zero attempts for `{startsWith: "+"}`; instead `validateCriteria` reports
no issue (it flags only `0`, `O`, `I`, `l`), the search loop runs to
exhaustion consuming 2 of 2 attempts, and the call returns plain `null`.
`validateCriteria` also accepts wholly empty criteria, against the claim's
at-least-one-constraint rule. -/
theorem c2_counterexample :
    base58Alphabet.contains '+' = false ∧
    validateCriteria AddressType.solana ⟨"+".data, [], [], false⟩ = [] ∧
    validateCriteria AddressType.solana ⟨[], [], [], false⟩ = [] ∧
    b58Go (fun _ => []) (fun _ => ⟨"11".data, [0]⟩) (fun _ => 0) (fun _ => true)
      ⟨"+".data, [], [], false⟩ 1000 2 0 = (none, 2) ∧
    b58GenerateVanityAddress (fun _ => []) (fun _ => ⟨"11".data, [0]⟩) (fun _ => 0)
      (fun _ => true) ⟨"+".data, [], [], false⟩ 2 1000 = none := by
  decide

/-- C2 amended: only the Hex variant's `generateVanityAddress` validates.
`EVMVanityAddressGenerator.generateVanityAddress` raises a `ValidationError`
before any keypair generation when its criteria are invalid — the result is the
thrown message, independent of the generator stream, so zero generation
attempts are consumed.  The Base58 variant's `generateVanityAddress` performs
no validation and consumes generation attempts even on criteria outside its
alphabet; the facade's separate pre-flight `validateCriteria` is not invoked
by the generators, accepts empty criteria, and flags only the four characters
`0`, `O`, `I`, `l` rather than full alphabet membership. -/
theorem c2_amended_hex_validation_before_generation
    (gen : Nat → EVMWallet) (elapsedAt : Nat → Nat) (stopAt : Nat → Bool)
    (c : Criteria) (maxAttempts maxTime : Nat) (e : String)
    (h : evmValidationError c = some e) :
    evmGenerateVanityAddress gen elapsedAt stopAt c maxAttempts maxTime = Except.error e := by
  unfold evmGenerateVanityAddress
  rw [h]

/-- Witness for the amended C2 at the three kinds of invalid hex criteria:
empty criteria, and a non-hex character in a constraint. -/
theorem c2_witness :
    evmGenerateVanityAddress (fun _ => ⟨"0xab".data, [], []⟩) (fun _ => 0) (fun _ => false)
      ⟨[], [], [], false⟩ 5 100 =
      Except.error "At least one criteria must be specified" ∧
    evmGenerateVanityAddress (fun _ => ⟨"0xab".data, [], []⟩) (fun _ => 0) (fun _ => false)
      ⟨"z".data, [], [], false⟩ 5 100 =
      Except.error "Starts with must contain only valid hex characters (0-9, a-f, A-F)" :=
  ⟨c2_amended_hex_validation_before_generation (fun _ => ⟨"0xab".data, [], []⟩) (fun _ => 0)
      (fun _ => false) ⟨[], [], [], false⟩ 5 100 _ (by rfl),
    c2_amended_hex_validation_before_generation (fun _ => ⟨"0xab".data, [], []⟩) (fun _ => 0)
      (fun _ => false) ⟨"z".data, [], [], false⟩ 5 100 _ (by rfl)⟩

/-- C3 counterexample: three Base58 searches that end for three different
reasons — stop flag cleared before the first check (cancellation), attempts
budget exhausted, and time budget exceeded — all return the identical value
`null`: the outcome carries no reason and the caller cannot distinguish the
three cases. -/
theorem c3_counterexample :
    b58GenerateVanityAddress (fun _ => []) (fun _ => ⟨"zz".data, [0]⟩) (fun _ => 0)
      (fun _ => false) ⟨"Q".data, [], [], false⟩ 5 1000 = none ∧
    b58GenerateVanityAddress (fun _ => []) (fun _ => ⟨"zz".data, [0]⟩) (fun _ => 0)
      (fun _ => true) ⟨"Q".data, [], [], false⟩ 2 1000 = none ∧
    b58GenerateVanityAddress (fun _ => []) (fun _ => ⟨"zz".data, [0]⟩) (fun _ => 5000)
      (fun _ => true) ⟨"Q".data, [], [], false⟩ 5 1000 = none := by
  decide

/-- C3 amended: a completed search yields either a Found result — which always
passes the matcher — or the single reasonless value `null` (`none`); the Hex
variant may additionally end in a thrown validation `Error`.  No outcome kind
records whether the attempts budget, the time budget or a cancellation ended a
null search. -/
theorem c3_amended_outcome_kinds :
    (∀ (enc : List Nat → List Char) (gen : Nat → B58Keypair) (elapsedAt : Nat → Nat)
        (runningAt : Nat → Bool) (c : Criteria) (maxAttempts maxTime : Nat),
        b58GenerateVanityAddress enc gen elapsedAt runningAt c maxAttempts maxTime = none ∨
        ∃ r, b58GenerateVanityAddress enc gen elapsedAt runningAt c maxAttempts maxTime = some r ∧
          b58MatchesCriteria r.publicKey c = true) ∧
    (∀ (gen : Nat → EVMWallet) (elapsedAt : Nat → Nat) (stopAt : Nat → Bool)
        (c : Criteria) (maxAttempts maxTime : Nat),
        (∃ e, evmGenerateVanityAddress gen elapsedAt stopAt c maxAttempts maxTime =
          Except.error e) ∨
        evmGenerateVanityAddress gen elapsedAt stopAt c maxAttempts maxTime = Except.ok none ∨
        ∃ r, evmGenerateVanityAddress gen elapsedAt stopAt c maxAttempts maxTime =
          Except.ok (some r) ∧ evmMatchesCriteria r.address c = true) := by
  constructor
  · intro enc gen elapsedAt runningAt c maxAttempts maxTime
    rcases hx : b58GenerateVanityAddress enc gen elapsedAt runningAt c maxAttempts maxTime
      with _ | r
    · exact Or.inl rfl
    · exact Or.inr ⟨r, rfl,
        b58Generate_found_matches enc gen elapsedAt runningAt c maxAttempts maxTime r hx⟩
  · intro gen elapsedAt stopAt c maxAttempts maxTime
    rcases hx : evmGenerateVanityAddress gen elapsedAt stopAt c maxAttempts maxTime
      with e | o
    · exact Or.inl ⟨e, rfl⟩
    · rcases o with _ | r
      · exact Or.inr (Or.inl rfl)
      · exact Or.inr (Or.inr ⟨r, rfl,
          evmGenerate_found_matches gen elapsedAt stopAt c maxAttempts maxTime r hx⟩)

/-- C4 counterexample: the repository has two hex matchers and they disagree.
For the address `0x` followed by forty `a`s and the case-sensitive criteria
`{startsWith: "a"}`, the EVM copy (which strips `0x`) accepts, while
`EthereumVanityAddressGenerator.matchesCriteria` — also cited as the hex
matcher — rejects, because it compares the pattern against the canonical `0x`
prefix; it even accepts a pattern that spells out the prefix (`"0xa"`), which
the claim says can never match. -/
theorem c4_counterexample :
    evmMatchesCriteria ('0' :: 'x' :: List.replicate 40 'a') ⟨"a".data, [], [], true⟩ = true ∧
    ethMatchesCriteria ('0' :: 'x' :: List.replicate 40 'a') ⟨"a".data, [], [], true⟩ = false ∧
    ethMatchesCriteria ('0' :: 'x' :: List.replicate 40 'a') ⟨"0xa".data, [], [], true⟩ = true := by
  decide

/-- C4 amended: only `EVMVanityAddressGenerator.matchesCriteria` applies the
pattern tests to the address body with the canonical `0x` prefix removed — it
coincides with the `EthereumVanityAddressGenerator` matcher applied to the
stripped address; the `EthereumVanityAddressGenerator` copy itself matches
against the full prefixed string, so its `startsWith` is compared against
`0x`. -/
theorem c4_amended_evm_matcher_strips_prefix (address : List Char) (c : Criteria) :
    evmMatchesCriteria address c = ethMatchesCriteria (strip0x address) c :=
  rfl

/-- C5 counterexample: start a search on an idle dispatcher (its promise is
pending), then call `stop()`: the worker is torn down but the pending promise
is still pending — `stop()` never resolves it as a `NotFound(Cancelled)`
outcome, it is left unsettled. -/
theorem c5_counterexample :
    (workerManagerGenerate ⟨false, false, none⟩).2.promise = some PromiseState.pending ∧
    workerManagerStop (workerManagerGenerate ⟨false, false, none⟩).2 =
      ⟨false, false, some PromiseState.pending⟩ := by
  decide

/-- C5 amended: `stop()` unconditionally tears down the worker, clears the
running flag when a worker existed, is idempotent, and is a no-op when no
worker is running; but it does not settle the pending `generateVanityAddress`
promise — the `promise` field is carried over unchanged, so a pending call
stays pending rather than resolving as `NotFound(Cancelled)`. -/
theorem c5_amended_stop_teardown_without_settling (s : EVMWorkerManagerState) :
    (workerManagerStop s).workerAlive = false ∧
    (s.workerAlive = true → (workerManagerStop s).isRunning = false) ∧
    (workerManagerStop s).promise = s.promise ∧
    workerManagerStop (workerManagerStop s) = workerManagerStop s ∧
    (s.workerAlive = false → workerManagerStop s = s) := by
  rcases s with ⟨wa, ir, p⟩
  cases wa <;> simp [workerManagerStop]

/-- Witness for the amended C5 on a running state and on an idle state. -/
theorem c5_witness :
    (workerManagerStop ⟨true, true, some PromiseState.pending⟩).isRunning = false ∧
    workerManagerStop ⟨false, false, none⟩ = ⟨false, false, none⟩ :=
  ⟨(c5_amended_stop_teardown_without_settling ⟨true, true, some PromiseState.pending⟩).2.1 rfl,
    (c5_amended_stop_teardown_without_settling ⟨false, false, none⟩).2.2.2.2 rfl⟩

/-- C8: while a search is active (`isRunning = true`), a second
`generateVanityAddress` call on the same `EVMWorkerManager` is rejected
synchronously with the busy error (`"Generation already in progress"`) and the
manager state — the first search's worker, running flag and pending promise —
is left completely untouched. -/
theorem c8_second_start_rejected_busy (s : EVMWorkerManagerState)
    (h : s.isRunning = true) :
    workerManagerGenerate s =
      (StartOutcome.busy "Generation already in progress".data, s) := by
  simp [workerManagerGenerate, h]

/-- Witness for C8 on a concrete busy dispatcher state. -/
theorem c8_witness :
    workerManagerGenerate ⟨true, true, some PromiseState.pending⟩ =
      (StartOutcome.busy "Generation already in progress".data,
        ⟨true, true, some PromiseState.pending⟩) :=
  c8_second_start_rejected_busy ⟨true, true, some PromiseState.pending⟩ rfl

/-- Helper: every Base58 per-constraint multiplier is positive. -/
theorem b58Factor_pos (s : List Char) (cs : Bool) : 0 < b58Factor s cs := by
  unfold b58Factor
  split
  · norm_num
  · apply mul_pos (pow_pos (by norm_num) _)
    cases cs
    · simp only [Bool.false_eq_true, if_false]
      exact lt_min (pow_pos (by norm_num) _) (by norm_num)
    · simp

/-- Helper: every Base58 per-constraint multiplier is at most one. -/
theorem b58Factor_le_one (s : List Char) (cs : Bool) : b58Factor s cs ≤ 1 := by
  unfold b58Factor
  split
  · exact le_refl 1
  · rename_i hs
    have hL : 1 ≤ s.length := List.length_pos.mpr (by simpa using hs)
    cases cs
    · simp only [Bool.false_eq_true, if_false]
      calc ((1:ℚ)/58) ^ s.length * min ((2:ℚ) ^ s.length) 58
          ≤ ((1:ℚ)/58) ^ s.length * 58 :=
            mul_le_mul_of_nonneg_left (min_le_right _ _) (pow_nonneg (by norm_num) _)
        _ ≤ ((1:ℚ)/58) ^ 1 * 58 :=
            mul_le_mul_of_nonneg_right
              (pow_le_pow_of_le_one (by norm_num) (by norm_num) hL) (by norm_num)
        _ = 1 := by norm_num
    · simpa using pow_le_one₀ (by norm_num : (0:ℚ) ≤ 1/58) (by norm_num)

/-- Helper: extending a constraint by one character can only shrink its Base58
multiplier. -/
theorem b58Factor_extend_le (s : List Char) (cs : Bool) (ch : Char) :
    b58Factor (s ++ [ch]) cs ≤ b58Factor s cs := by
  by_cases hs : s.isEmpty = true
  · have hnil : s = [] := by simpa using hs
    subst hnil
    calc b58Factor ([] ++ [ch]) cs ≤ 1 := b58Factor_le_one _ _
      _ = b58Factor [] cs := by simp [b58Factor]
  · have hlen : (s ++ [ch]).length = s.length + 1 := by simp
    unfold b58Factor
    rw [if_neg (by simp : ¬((s ++ [ch]).isEmpty = true)), if_neg hs, hlen, pow_succ]
    have hc' : (if cs then (1:ℚ) else min ((2:ℚ) ^ (s.length + 1)) 58) ≤ 58 := by
      cases cs
      · simp only [Bool.false_eq_true, if_false]
        exact min_le_right _ _
      · norm_num
    have hc : (1:ℚ) ≤ (if cs then (1:ℚ) else min ((2:ℚ) ^ s.length) 58) := by
      cases cs
      · simp only [Bool.false_eq_true, if_false]
        exact le_min (one_le_pow₀ (by norm_num)) (by norm_num)
      · norm_num
    rw [mul_assoc]
    exact mul_le_mul_of_nonneg_left (by linarith) (pow_nonneg (by norm_num) _)

/-- Helper: every hex `startsWith` / `endsWith` multiplier is positive. -/
theorem evmFactor_pos (s : List Char) (cs : Bool) : 0 < evmFactor s cs := by
  unfold evmFactor
  split
  · norm_num
  · apply mul_pos (pow_pos (by norm_num) _)
    cases cs
    · simp only [Bool.false_eq_true, if_false]
      exact lt_min (pow_pos (by norm_num) _) (by norm_num)
    · simp

/-- Helper: extending a constraint by one character can only shrink its hex
`startsWith` / `endsWith` multiplier. -/
theorem evmFactor_extend_le (s : List Char) (cs : Bool) (ch : Char) :
    evmFactor (s ++ [ch]) cs ≤ evmFactor s cs := by
  by_cases hs : s.isEmpty = true
  · have hnil : s = [] := by simpa using hs
    subst hnil
    have h1 : evmFactor ([] ++ [ch]) cs ≤ 1 := by
      unfold evmFactor
      rw [if_neg (by simp : ¬(([] ++ [ch] : List Char).isEmpty = true))]
      have hc' : (if cs then (1:ℚ) else min ((2:ℚ) ^ ([] ++ [ch] : List Char).length) 16) ≤ 16 := by
        cases cs
        · simp only [Bool.false_eq_true, if_false]
          exact min_le_right _ _
        · norm_num
      have hp : ((1:ℚ)/16) ^ ([] ++ [ch] : List Char).length = 1/16 := by norm_num
      rw [hp]
      linarith
    calc evmFactor ([] ++ [ch]) cs ≤ 1 := h1
      _ = evmFactor [] cs := by simp [evmFactor]
  · have hlen : (s ++ [ch]).length = s.length + 1 := by simp
    unfold evmFactor
    rw [if_neg (by simp : ¬((s ++ [ch]).isEmpty = true)), if_neg hs, hlen, pow_succ]
    have hc' : (if cs then (1:ℚ) else min ((2:ℚ) ^ (s.length + 1)) 16) ≤ 16 := by
      cases cs
      · simp only [Bool.false_eq_true, if_false]
        exact min_le_right _ _
      · norm_num
    have hc : (1:ℚ) ≤ (if cs then (1:ℚ) else min ((2:ℚ) ^ s.length) 16) := by
      cases cs
      · simp only [Bool.false_eq_true, if_false]
        exact le_min (one_le_pow₀ (by norm_num)) (by norm_num)
      · norm_num
    rw [mul_assoc]
    exact mul_le_mul_of_nonneg_left (by linarith) (pow_nonneg (by norm_num) _)

/-- Helper: the hex `contains` multiplier is nonnegative while the constraint
fits into the 40-character address body extended by one (so that
`40 - L + 1 ≥ 0`). -/
theorem evmContainsFactor_nonneg (s : List Char) (cs : Bool) (h : s.length ≤ 41) :
    0 ≤ evmContainsFactor s cs := by
  unfold evmContainsFactor
  split
  · norm_num
  · have h41 : (s.length : ℚ) ≤ 41 := by exact_mod_cast h
    apply mul_nonneg (mul_nonneg (pow_nonneg (by norm_num) _) (by linarith))
    cases cs
    · simp only [Bool.false_eq_true, if_false]
      exact le_min (pow_nonneg (by norm_num) _) (by norm_num)
    · simp

/-- Helper: arithmetic core of one extension step of the hex `contains`
multiplier while the constraint fits the 40-character body. -/
theorem evmContainsStep (L : ℕ) (C C' : ℚ) (h40 : (L:ℚ) ≤ 40) (hC'0 : 0 ≤ C')
    (hC' : C' ≤ 16) (hC : 1 ≤ C) :
    ((1:ℚ)/16) ^ L * (1/16) * ((40:ℚ) - ((L:ℚ) + 1) + 1) * C' ≤
      ((1:ℚ)/16) ^ L * ((40:ℚ) - (L:ℚ) + 1) * C := by
  have hA : (0:ℚ) ≤ ((1:ℚ)/16) ^ L := pow_nonneg (by norm_num) _
  have key : (1/16:ℚ) * ((40:ℚ) - ((L:ℚ) + 1) + 1) * C' ≤ ((40:ℚ) - (L:ℚ) + 1) * C := by
    have k1 : ((40:ℚ) - (L:ℚ)) * C' ≤ ((40:ℚ) - (L:ℚ)) * 16 :=
      mul_le_mul_of_nonneg_left hC' (by linarith)
    have k2 : ((40:ℚ) - (L:ℚ) + 1) ≤ ((40:ℚ) - (L:ℚ) + 1) * C :=
      le_mul_of_one_le_right (by linarith) hC
    nlinarith
  calc ((1:ℚ)/16) ^ L * (1/16) * ((40:ℚ) - ((L:ℚ) + 1) + 1) * C'
      = ((1:ℚ)/16) ^ L * ((1/16) * ((40:ℚ) - ((L:ℚ) + 1) + 1) * C') := by ring
    _ ≤ ((1:ℚ)/16) ^ L * (((40:ℚ) - (L:ℚ) + 1) * C) := mul_le_mul_of_nonneg_left key hA
    _ = ((1:ℚ)/16) ^ L * ((40:ℚ) - (L:ℚ) + 1) * C := by ring

/-- Helper: extending a non-empty `contains` constraint that still fits the
40-character body shrinks its hex multiplier. -/
theorem evmContainsFactor_extend_le (s : List Char) (cs : Bool) (ch : Char)
    (hne : s ≠ []) (h40 : s.length ≤ 40) :
    evmContainsFactor (s ++ [ch]) cs ≤ evmContainsFactor s cs := by
  have hs : ¬(s.isEmpty = true) := by simpa using hne
  have hlen : (s ++ [ch]).length = s.length + 1 := by simp
  unfold evmContainsFactor
  rw [if_neg (by simp : ¬((s ++ [ch]).isEmpty = true)), if_neg hs, hlen, pow_succ]
  have hLq : (s.length : ℚ) ≤ 40 := by exact_mod_cast h40
  have hC'0 : (0:ℚ) ≤ (if cs then (1:ℚ) else min ((2:ℚ) ^ (s.length + 1)) 16) := by
    cases cs
    · simp only [Bool.false_eq_true, if_false]
      exact le_min (pow_nonneg (by norm_num) _) (by norm_num)
    · norm_num
  have hC' : (if cs then (1:ℚ) else min ((2:ℚ) ^ (s.length + 1)) 16) ≤ 16 := by
    cases cs
    · simp only [Bool.false_eq_true, if_false]
      exact min_le_right _ _
    · norm_num
  have hC : (1:ℚ) ≤ (if cs then (1:ℚ) else min ((2:ℚ) ^ s.length) 16) := by
    cases cs
    · simp only [Bool.false_eq_true, if_false]
      exact le_min (one_le_pow₀ (by norm_num)) (by norm_num)
    · norm_num
  push_cast
  exact evmContainsStep s.length _ _ hLq hC'0 hC' hC

/-- Helper: once the extended `contains` constraint is longer than 41
characters, the start-offset term `40 - L + 1` is negative and so is the whole
multiplier. -/
theorem evmContainsFactor_extend_nonpos (s : List Char) (cs : Bool) (ch : Char)
    (h41 : 41 ≤ s.length) :
    evmContainsFactor (s ++ [ch]) cs ≤ 0 := by
  have hlen : (s ++ [ch]).length = s.length + 1 := by simp
  unfold evmContainsFactor
  rw [if_neg (by simp : ¬((s ++ [ch]).isEmpty = true)), hlen]
  have hq : (41:ℚ) ≤ (s.length : ℚ) := by exact_mod_cast h41
  have hneg : ((40:ℚ) - (s.length + 1 : ℕ) + 1) ≤ 0 := by
    push_cast
    linarith
  have hC'0 : (0:ℚ) ≤ (if cs then (1:ℚ) else min ((2:ℚ) ^ (s.length + 1)) 16) := by
    cases cs
    · simp only [Bool.false_eq_true, if_false]
      exact le_min (pow_nonneg (by norm_num) _) (by norm_num)
    · norm_num
  exact mul_nonpos_iff.mpr (Or.inr ⟨mul_nonpos_iff.mpr
    (Or.inl ⟨pow_nonneg (by norm_num) _, hneg⟩), hC'0⟩)

/-- Helper: the Base58 probability estimate is positive. -/
theorem b58EstimateProbability_pos (c : Criteria) : 0 < b58EstimateProbability c :=
  mul_pos (mul_pos (b58Factor_pos _ _) (b58Factor_pos _ _)) (b58Factor_pos _ _)

/-- Helper: the Base58 probability estimate is at most one. -/
theorem b58EstimateProbability_le_one (c : Criteria) : b58EstimateProbability c ≤ 1 :=
  mul_le_one₀ (mul_le_one₀ (b58Factor_le_one _ _) (b58Factor_pos _ _).le (b58Factor_le_one _ _))
    (b58Factor_pos _ _).le (b58Factor_le_one _ _)

/-- Helper: the expected-attempts expression `p > 0 ? ceil(1/p) : Infinity` is
antitone in the probability, counting `Infinity` above every integer; a
nonpositive probability always lands on `Infinity`. -/
theorem attemptsIte_anti (p q : ℚ) (h : q ≤ p ∨ q ≤ 0) :
    (if 0 < p then ((⌈1 / p⌉ : ℤ) : WithTop ℤ) else ⊤) ≤
      (if 0 < q then ((⌈1 / q⌉ : ℤ) : WithTop ℤ) else ⊤) := by
  by_cases hq : 0 < q
  · have hqp : q ≤ p := by
      rcases h with h | h
      · exact h
      · linarith
    have hp : 0 < p := lt_of_lt_of_le hq hqp
    rw [if_pos hp, if_pos hq]
    exact WithTop.coe_le_coe.mpr (Int.ceil_mono (one_div_le_one_div_of_le hq hqp))
  · rw [if_neg hq]
    exact le_top

/-- Helper: `b58EstimateExpectedAttempts` written as the bare conditional. -/
theorem b58Attempts_eq (c : Criteria) :
    b58EstimateExpectedAttempts c =
      (if 0 < b58EstimateProbability c
        then ((⌈1 / b58EstimateProbability c⌉ : ℤ) : WithTop ℤ) else ⊤) :=
  rfl

/-- Helper: `evmEstimateExpectedAttempts` written as the bare conditional. -/
theorem evmAttempts_eq (c : Criteria) :
    evmEstimateExpectedAttempts c =
      (if 0 < evmEstimateProbability c
        then ((⌈1 / evmEstimateProbability c⌉ : ℤ) : WithTop ℤ) else ⊤) :=
  rfl

/-- C6 counterexample: the hex criteria with `contains` equal to forty-two `a`
characters passes validation (the hex check has no length cap), yet
`estimateProbability` returns a negative value: the start-offset multiplier is
`40 - 42 + 1 = -1` and the final clamp only caps values above one. -/
theorem c6_counterexample :
    evmValidationError ⟨[], [], List.replicate 42 'a', true⟩ = none ∧
    evmEstimateProbability ⟨[], [], List.replicate 42 'a', true⟩ < 0 := by
  constructor
  · decide
  · norm_num [evmEstimateProbability, evmFactor, evmContainsFactor, min_def, List.replicate]

/-- C6 amended: `estimateProbability` lies in `[0, 1]` for every Base58
criteria, and for every hex criteria whose `contains` constraint has length at
most 41; for longer `contains` constraints the negative start-offset multiplier
`40 - L + 1` drives the result below zero. -/
theorem c6_amended_probability_in_unit_interval :
    (∀ c : Criteria, 0 ≤ b58EstimateProbability c ∧ b58EstimateProbability c ≤ 1) ∧
    (∀ c : Criteria, c.contains.length ≤ 41 →
      0 ≤ evmEstimateProbability c ∧ evmEstimateProbability c ≤ 1) := by
  constructor
  · intro c
    exact ⟨(b58EstimateProbability_pos c).le, b58EstimateProbability_le_one c⟩
  · intro c h
    constructor
    · apply le_min _ (by norm_num)
      exact mul_nonneg (mul_nonneg (evmFactor_pos _ _).le (evmFactor_pos _ _).le)
        (evmContainsFactor_nonneg _ _ h)
    · exact min_le_right _ _

/-- Witness for the amended C6 at one criteria of each variant. -/
theorem c6_witness :
    (0 ≤ b58EstimateProbability ⟨"AB".data, [], [], false⟩ ∧
      b58EstimateProbability ⟨"AB".data, [], [], false⟩ ≤ 1) ∧
    (0 ≤ evmEstimateProbability ⟨"a".data, [], "b".data, true⟩ ∧
      evmEstimateProbability ⟨"a".data, [], "b".data, true⟩ ≤ 1) :=
  ⟨c6_amended_probability_in_unit_interval.1 ⟨"AB".data, [], [], false⟩,
    c6_amended_probability_in_unit_interval.2 ⟨"a".data, [], "b".data, true⟩ (by decide)⟩

/-- C7 counterexample: for the hex variant, extending the empty `contains`
constraint of `{startsWith: "a", caseSensitive: true}` by the single character
`b` lowers `estimateExpectedAttempts` from 16 to 7: the start-offset multiplier
`40 - 1 + 1 = 40` outweighs the per-character probability `1/16`, so the
estimate is not monotonically non-decreasing in constraint length. -/
theorem c7_counterexample :
    extendSlot ⟨"a".data, [], [], true⟩ Slot.ct 'b' = ⟨"a".data, [], "b".data, true⟩ ∧
    evmEstimateExpectedAttempts ⟨"a".data, [], [], true⟩ = ((16 : ℤ) : WithTop ℤ) ∧
    evmEstimateExpectedAttempts ⟨"a".data, [], "b".data, true⟩ = ((7 : ℤ) : WithTop ℤ) ∧
    evmEstimateExpectedAttempts ⟨"a".data, [], "b".data, true⟩ <
      evmEstimateExpectedAttempts ⟨"a".data, [], [], true⟩ := by
  have h16 : evmEstimateExpectedAttempts ⟨"a".data, [], [], true⟩ = ((16 : ℤ) : WithTop ℤ) := by
    norm_num [evmEstimateExpectedAttempts, evmEstimateProbability, evmFactor,
      evmContainsFactor, min_def]
  have h7 : evmEstimateExpectedAttempts ⟨"a".data, [], "b".data, true⟩ =
      ((7 : ℤ) : WithTop ℤ) := by
    norm_num [evmEstimateExpectedAttempts, evmEstimateProbability, evmFactor,
      evmContainsFactor, min_def, Int.ceil_eq_iff]
  refine ⟨by decide, h16, h7, ?_⟩
  rw [h16, h7]
  exact WithTop.coe_lt_coe.mpr (by norm_num)

/-- C7 amended: `estimateExpectedAttempts` is monotonically non-decreasing
under extending any one constraint by one character for the Base58 variant
unconditionally, and for the Hex variant whenever the extended constraint is
`startsWith`, `endsWith`, or an already non-empty `contains`; the only failing
case is extending the hex `contains` constraint from empty to one character. -/
theorem c7_amended_expected_attempts_monotone :
    (∀ (c : Criteria) (sl : Slot) (ch : Char),
        b58EstimateExpectedAttempts c ≤ b58EstimateExpectedAttempts (extendSlot c sl ch)) ∧
    (∀ (c : Criteria) (sl : Slot) (ch : Char), (sl = Slot.ct → c.contains ≠ []) →
        evmEstimateExpectedAttempts c ≤ evmEstimateExpectedAttempts (extendSlot c sl ch)) := by
  constructor
  · intro c sl ch
    rw [b58Attempts_eq, b58Attempts_eq]
    apply attemptsIte_anti
    left
    cases sl
    · simp only [extendSlot, b58EstimateProbability]
      exact mul_le_mul_of_nonneg_right
        (mul_le_mul_of_nonneg_right (b58Factor_extend_le _ _ _) (b58Factor_pos _ _).le)
        (b58Factor_pos _ _).le
    · simp only [extendSlot, b58EstimateProbability]
      exact mul_le_mul_of_nonneg_right
        (mul_le_mul_of_nonneg_left (b58Factor_extend_le _ _ _) (b58Factor_pos _ _).le)
        (b58Factor_pos _ _).le
    · simp only [extendSlot, b58EstimateProbability]
      exact mul_le_mul_of_nonneg_left (b58Factor_extend_le _ _ _)
        (mul_pos (b58Factor_pos _ _) (b58Factor_pos _ _)).le
  · intro c sl ch hct
    rw [evmAttempts_eq, evmAttempts_eq]
    apply attemptsIte_anti
    cases sl
    · rcases le_or_lt 0 (evmContainsFactor c.contains c.caseSensitive) with hc | hc
      · left
        simp only [extendSlot, evmEstimateProbability]
        refine min_le_min ?_ le_rfl
        exact mul_le_mul_of_nonneg_right
          (mul_le_mul_of_nonneg_right (evmFactor_extend_le _ _ _) (evmFactor_pos _ _).le) hc
      · right
        simp only [extendSlot, evmEstimateProbability]
        refine le_trans (min_le_left _ _) ?_
        exact mul_nonpos_iff.mpr (Or.inl
          ⟨(mul_pos (evmFactor_pos _ _) (evmFactor_pos _ _)).le, hc.le⟩)
    · rcases le_or_lt 0 (evmContainsFactor c.contains c.caseSensitive) with hc | hc
      · left
        simp only [extendSlot, evmEstimateProbability]
        refine min_le_min ?_ le_rfl
        exact mul_le_mul_of_nonneg_right
          (mul_le_mul_of_nonneg_left (evmFactor_extend_le _ _ _) (evmFactor_pos _ _).le) hc
      · right
        simp only [extendSlot, evmEstimateProbability]
        refine le_trans (min_le_left _ _) ?_
        exact mul_nonpos_iff.mpr (Or.inl
          ⟨(mul_pos (evmFactor_pos _ _) (evmFactor_pos _ _)).le, hc.le⟩)
    · have hne : c.contains ≠ [] := hct rfl
      rcases le_or_lt c.contains.length 40 with h40 | h41
      · left
        simp only [extendSlot, evmEstimateProbability]
        refine min_le_min ?_ le_rfl
        exact mul_le_mul_of_nonneg_left (evmContainsFactor_extend_le _ _ _ hne h40)
          (mul_pos (evmFactor_pos _ _) (evmFactor_pos _ _)).le
      · right
        simp only [extendSlot, evmEstimateProbability]
        refine le_trans (min_le_left _ _) ?_
        exact mul_nonpos_iff.mpr (Or.inl
          ⟨(mul_pos (evmFactor_pos _ _) (evmFactor_pos _ _)).le,
            evmContainsFactor_extend_nonpos _ _ _ (by omega)⟩)

/-- Witness for the amended C7: one concrete extension step per variant. -/
theorem c7_witness :
    b58EstimateExpectedAttempts ⟨"A".data, [], [], false⟩ ≤
      b58EstimateExpectedAttempts (extendSlot ⟨"A".data, [], [], false⟩ Slot.sw 'B') ∧
    evmEstimateExpectedAttempts ⟨"a".data, [], "b".data, true⟩ ≤
      evmEstimateExpectedAttempts (extendSlot ⟨"a".data, [], "b".data, true⟩ Slot.ct 'c') :=
  ⟨c7_amended_expected_attempts_monotone.1 ⟨"A".data, [], [], false⟩ Slot.sw 'B',
    c7_amended_expected_attempts_monotone.2 ⟨"a".data, [], "b".data, true⟩ Slot.ct 'c'
      (fun _ => by decide)⟩

/-- Helper: rounding to nearest hits `n` whenever the value lies strictly
within half a unit of `n` (no tie arises). -/
theorem rnEven_eq (x : ℚ) (n : ℤ) (h1 : (n:ℚ) - 1/2 < x) (h2 : x < (n:ℚ) + 1/2) :
    rnEven x = n := by
  rcases le_or_lt (n:ℚ) x with hx | hx
  · have hf : ⌊x⌋ = n := Int.floor_eq_iff.mpr ⟨hx, by linarith⟩
    unfold rnEven
    rw [hf, if_pos (by linarith)]
  · have hf : ⌊x⌋ = n - 1 := Int.floor_eq_iff.mpr ⟨by push_cast; linarith, by push_cast; linarith⟩
    unfold rnEven
    rw [hf, if_neg (by push_cast; linarith), if_pos (by push_cast; linarith)]
    omega

/-- Helper: characterization of `roundDouble` away from ties: if `q` lies in
the binade `[2^(e+52), 2^(e+53))` and `n` is within half an ulp `2^e` of `q`,
the rounded value is `n * 2^e`. -/
theorem roundDouble_eq_of (q : ℚ) (e n : ℤ)
    (h1 : (2:ℚ) ^ (e + 52) ≤ q) (h2 : q < (2:ℚ) ^ (e + 53))
    (h3 : (n:ℚ) - 1/2 < q / (2:ℚ) ^ e) (h4 : q / (2:ℚ) ^ e < (n:ℚ) + 1/2) :
    roundDouble q = (n:ℚ) * (2:ℚ) ^ e := by
  have hq : 0 < q := lt_of_lt_of_le (zpow_pos (by norm_num) _) h1
  have hb : (1:ℕ) < 2 := by norm_num
  have hcast : ((2:ℕ):ℚ) = (2:ℚ) := by norm_num
  have hle : e + 52 ≤ Int.log 2 q := by
    rw [← Int.zpow_le_iff_le_log hb hq, hcast]
    exact h1
  have hlt : Int.log 2 q < e + 53 := by
    rw [← Int.lt_zpow_iff_log_lt hb hq, hcast]
    exact h2
  have hlog : Int.log 2 q = e + 52 := by omega
  unfold roundDouble
  rw [if_neg (by linarith), hlog]
  have he : e + 52 - 52 = e := by omega
  rw [he]
  show (↑(rnEven (q / 2 ^ e)) : ℚ) * 2 ^ e = ↑n * 2 ^ e
  rw [rnEven_eq (q / 2 ^ e) n h3 h4]

/-- Helper: exact binary64 evaluation of the Base58 probability estimate at
`{startsWith: "AB", caseSensitive: false}`: the rounded value of
`pow(RN(1/58), 2) · 4` is `5483574338201412 · 2^-62`. -/
theorem b58ProbabilityFP_AB :
    b58EstimateProbabilityFP ⟨['A', 'B'], [], [], false⟩ =
      (5483574338201412:ℚ) * (2:ℚ) ^ (-62:ℤ) := by
  have h1 : roundDouble (1 / 58) = (4969489243995030:ℚ) * (2:ℚ) ^ (-58:ℤ) :=
    roundDouble_eq_of (1/58) (-58) 4969489243995030 (by norm_num) (by norm_num)
      (by norm_num) (by norm_num)
  have h2 : roundDouble (((4969489243995030:ℚ) * (2:ℚ) ^ (-58:ℤ)) ^ 2) =
      (5483574338201412:ℚ) * (2:ℚ) ^ (-64:ℤ) :=
    roundDouble_eq_of _ (-64) 5483574338201412 (by norm_num) (by norm_num)
      (by norm_num) (by norm_num)
  have h3 : roundDouble ((5483574338201412:ℚ) * (2:ℚ) ^ (-64:ℤ)) =
      (5483574338201412:ℚ) * (2:ℚ) ^ (-64:ℤ) :=
    roundDouble_eq_of ((5483574338201412:ℚ) * (2:ℚ) ^ (-64:ℤ)) (-64) 5483574338201412
      (by norm_num) (by norm_num) (by norm_num) (by norm_num)
  have h4 : roundDouble (4:ℚ) = 4 := by
    have h := roundDouble_eq_of (4:ℚ) (-50) 4503599627370496
      (by norm_num) (by norm_num) (by norm_num) (by norm_num)
    rw [h]
    norm_num
  have h5 : min (4:ℚ) 58 = 4 := by norm_num [min_def]
  have h6 : roundDouble ((5483574338201412:ℚ) * (2:ℚ) ^ (-64:ℤ) * 4) =
      (5483574338201412:ℚ) * (2:ℚ) ^ (-62:ℤ) :=
    roundDouble_eq_of _ (-62) 5483574338201412 (by norm_num) (by norm_num)
      (by norm_num) (by norm_num)
  simp only [b58EstimateProbabilityFP, List.isEmpty_cons, List.isEmpty_nil, Bool.false_eq_true,
    if_false, if_true, List.length_cons, List.length_nil]
  norm_num
  rw [h1, h2, h3, h4, h5, h6]
  norm_num

/-- Helper: exact binary64 evaluation of the Base58 expected-attempts
computation at `{startsWith: "AB", caseSensitive: false}`: the double division
`1 / probability` yields `841 + 2^-43` and `Math.ceil` returns 842. -/
theorem b58AttemptsFP_AB :
    b58EstimateExpectedAttemptsFP ⟨['A', 'B'], [], [], false⟩ = ((842:ℤ) : WithTop ℤ) := by
  have h7 : roundDouble (1 / ((5483574338201412:ℚ) * (2:ℚ) ^ (-62:ℤ))) =
      (7397514231676929:ℚ) * (2:ℚ) ^ (-43:ℤ) :=
    roundDouble_eq_of _ (-43) 7397514231676929 (by norm_num) (by norm_num)
      (by norm_num) (by norm_num)
  have h8 : (⌈(7397514231676929:ℚ) * (2:ℚ) ^ (-43:ℤ)⌉ : ℤ) = 842 := by
    rw [Int.ceil_eq_iff]
    constructor <;> norm_num
  have hpos : (0:ℚ) < (5483574338201412:ℚ) * (2:ℚ) ^ (-62:ℤ) := by positivity
  simp only [b58EstimateExpectedAttemptsFP]
  rw [b58ProbabilityFP_AB, if_pos hpos, h7, h8]

/-- C9 counterexample: under IEEE-754 binary64 arithmetic — the arithmetic the
program actually runs — `estimateExpectedAttempts` at the Base58 criteria
`{startsWith: "AB", caseSensitive: false}` returns 842, not the claimed 841:
the double value of `1 / probability` is `841 + 2^-43`, a fraction of an ulp
above the exact 841, and `Math.ceil` rounds it up. -/
theorem c9_counterexample :
    b58EstimateExpectedAttemptsFP ⟨['A', 'B'], [], [], false⟩ = ((842:ℤ) : WithTop ℤ) ∧
    ((842:ℤ) : WithTop ℤ) ≠ ((841:ℤ) : WithTop ℤ) :=
  ⟨b58AttemptsFP_AB, by simp⟩

/-- C9 amended: for the Base58 variant with criteria `{startsWith: "AB",
caseSensitive: false}`, the estimator's probability is exactly
`(1/58)² · min(2², 58) = 1/841`, so the idealized expected-attempts value is
`ceil(58²/4) = 841`; the program's binary64 arithmetic however returns 842,
because the computed `1 / probability` rounds to `841 + 2^-43` and
`Math.ceil` lands one above the exact ceiling. -/
theorem c9_amended_expected_attempts :
    b58EstimateProbability ⟨['A', 'B'], [], [], false⟩ = 1 / 841 ∧
    b58EstimateExpectedAttempts ⟨['A', 'B'], [], [], false⟩ = ((841 : ℤ) : WithTop ℤ) ∧
    b58EstimateExpectedAttemptsFP ⟨['A', 'B'], [], [], false⟩ = ((842 : ℤ) : WithTop ℤ) := by
  refine ⟨?_, ?_, b58AttemptsFP_AB⟩
  · norm_num [b58EstimateProbability, b58Factor, min_def]
  · norm_num [b58EstimateExpectedAttempts, b58EstimateProbability, b58Factor, min_def]

